import Mathlib

/-!
Verification development for the extraction pipeline of the AI server
(`src/main.py`): the markdown-fence/smart-quote text normalizer, the
multi-strategy JSON extractor `safe_json_from_text`, the record
canonicalizer `canonicalize_record`, the provider classifier
`is_openrouter_model`, the gpt-5 parameter normalizer
`normalize_for_gpt5`, and the `/v1/prefill` request handler with its
append-only CSV store.

Modelling conventions:
- Python strings are modelled as `List Char` (`Str`).
- `str.strip` is modelled over the ASCII whitespace characters
  (space, tab, newline, carriage return, vertical tab, form feed);
  the claims under verification exercise no other strip characters.
- `str.splitlines` is modelled over the full set of Python line
  boundaries: LF, CR (with CRLF as a single boundary), VT, FF, FS,
  GS, RS, NEL, LINE SEPARATOR and PARAGRAPH SEPARATOR.
- JSON numbers are modelled by their source literal (`JValue.num`).
  The claims under verification do not depend on binary floating-point
  value identity, only on the decimal text of numbers.
- `json.loads` is modelled by `json_loads`, a fuel-based recursive
  descent parser following the grammar accepted by the Python `json`
  module in strict mode (including the `NaN` and `Infinity` constants
  and last-wins duplicate object keys).  Surrogate-pair combination of
  `\uXXXX` escapes is not modelled.
-/

abbrev Str := List Char

def backtick : Char := Char.ofNat 96

def squote : Char := Char.ofNat 39

def lDQuote : Char := Char.ofNat 8220

def rDQuote : Char := Char.ofNat 8221

def rSQuote : Char := Char.ofNat 8217

/-- Whitespace removed by Python `str.strip` (ASCII subset, see header). -/
def isPws (c : Char) : Bool :=
  c = ' ' || c = '\t' || c = '\n' || c = '\r' || c = Char.ofNat 11 || c = Char.ofNat 12

/-- JSON whitespace skipped by the `json` module scanner. -/
def isJWs (c : Char) : Bool :=
  c = ' ' || c = '\t' || c = '\n' || c = '\r'

/-- Python `str.strip()`. -/
def pyStrip (l : Str) : Str :=
  ((l.dropWhile isPws).reverse.dropWhile isPws).reverse

def skipWs : Str → Str
  | [] => []
  | c :: r => if isJWs c then skipWs r else c :: r

/-- `startsWithL p s` is Python `s.startswith(p)`. -/
def startsWithL : Str → Str → Bool
  | [], _ => true
  | _ :: _, [] => false
  | p :: ps, c :: cs => p = c && startsWithL ps cs

def dropTrailingEmpty (xs : List Str) : List Str :=
  match xs.getLast? with
  | some [] => xs.dropLast
  | _ => xs

/-- The line-boundary characters of Python `str.splitlines()`:
`\n`, `\r`, `\v` (0x0b), `\f` (0x0c), the file/group/record
separators 0x1c-0x1e, NEL (0x85), LINE SEPARATOR (0x2028) and
PARAGRAPH SEPARATOR (0x2029). -/
def isLineBoundary (c : Char) : Bool :=
  c = '\n' || c = '\r' || c = Char.ofNat 11 || c = Char.ofNat 12 ||
  c = Char.ofNat 28 || c = Char.ofNat 29 || c = Char.ofNat 30 ||
  c = Char.ofNat 133 || c = Char.ofNat 8232 || c = Char.ofNat 8233

/-- Split at every line boundary (a `\r\n` pair is one boundary),
keeping a trailing empty piece after a final boundary. -/
def splitLinesCore : Str → List Str
  | [] => [[]]
  | [c] => if isLineBoundary c then [[], []] else [[c]]
  | c :: c2 :: rest =>
    if c = '\r' then
      if c2 = '\n' then [] :: splitLinesCore rest
      else [] :: splitLinesCore (c2 :: rest)
    else if isLineBoundary c then [] :: splitLinesCore (c2 :: rest)
    else
      match splitLinesCore (c2 :: rest) with
      | [] => [[c]]
      | h :: t => (c :: h) :: t

/-- Python `str.splitlines()`: split at every line boundary and drop
the trailing empty piece a final boundary leaves (so the empty string
yields no lines). -/
def splitLines (s : Str) : List Str :=
  dropTrailingEmpty (splitLinesCore s)

/-- Python `"\n".join(lines)`. -/
def joinNl : List Str → Str
  | [] => []
  | [x] => x
  | x :: y :: ys => x ++ '\n' :: joinNl (y :: ys)

def fence : Str := [backtick, backtick, backtick]

/-- `_strip_code_fences` from `src/main.py`: strip the text, and if it
begins with a triple-backtick fence, drop the first line and a final
line that begins (after stripping) with a fence, then strip again. -/
def strip_code_fences (t0 : Str) : Str :=
  let t := pyStrip t0
  if startsWithL fence t then
    let lines := splitLines t
    let lines1 :=
      match lines with
      | [] => []
      | l0 :: rest => if startsWithL fence l0 then rest else l0 :: rest
    let lines2 :=
      match lines1.getLast? with
      | some last => if startsWithL fence (pyStrip last) then lines1.dropLast else lines1
      | none => lines1
    pyStrip (joinNl lines2)
  else t

/-- The smart-quote normalization from `safe_json_from_text`:
left/right double quotes become `"` and the right single quote becomes
`'` (each replaced pattern is a single character, so `str.replace` is a
character map). -/
def replaceSmart (l : Str) : Str :=
  l.map (fun c =>
    if c = lDQuote then '"'
    else if c = rDQuote then '"'
    else if c = rSQuote then squote
    else c)

/-- The preprocessing `safe_json_from_text` applies before any decode
attempt: fence stripping then smart-quote normalization. -/
def preprocess (t : Str) : Str := replaceSmart (strip_code_fences t)

/-- A decoded JSON value as produced by `json.loads` (numbers carry
their source literal, see header). -/
inductive JValue : Type where
  | null
  | bool (b : Bool)
  | num (lit : Str)
  | str (s : Str)
  | arr (elems : List JValue)
  | obj (members : List (Str × JValue))

def hexVal (c : Char) : Option Nat :=
  if '0' ≤ c ∧ c ≤ '9' then some (c.toNat - 48)
  else if 'a' ≤ c ∧ c ≤ 'f' then some (c.toNat - 87)
  else if 'A' ≤ c ∧ c ≤ 'F' then some (c.toNat - 55)
  else none

/-- JSON string body parser (after the opening quote): returns the
decoded characters and the remainder after the closing quote.  Strict
mode: unescaped control characters are rejected. -/
def parseJString : Str → Option (Str × Str)
  | [] => none
  | c :: rest =>
    if c = '"' then some ([], rest)
    else if c = '\\' then
      match rest with
      | [] => none
      | e :: r2 =>
        if e = 'u' then
          match r2 with
          | a :: b :: c2 :: d :: r3 =>
            match hexVal a, hexVal b, hexVal c2, hexVal d with
            | some ha, some hb, some hc, some hd =>
              match parseJString r3 with
              | some (s, rest2) =>
                some (Char.ofNat (((ha * 16 + hb) * 16 + hc) * 16 + hd) :: s, rest2)
              | none => none
            | _, _, _, _ => none
          | _ => none
        else
          match
            (if e = '"' then some '"'
             else if e = '\\' then some '\\'
             else if e = '/' then some '/'
             else if e = 'b' then some (Char.ofNat 8)
             else if e = 'f' then some (Char.ofNat 12)
             else if e = 'n' then some '\n'
             else if e = 'r' then some '\r'
             else if e = 't' then some '\t'
             else none) with
          | some ec =>
            match parseJString r2 with
            | some (s, rest2) => some (ec :: s, rest2)
            | none => none
          | none => none
    else if c.toNat < 32 then none
    else
      match parseJString rest with
      | some (s, rest2) => some (c :: s, rest2)
      | none => none

/-- Integer part of the JSON number grammar: `0` or `[1-9][0-9]*`. -/
def parseIntPart : Str → Option (Str × Str)
  | [] => none
  | c :: rest =>
    if c = '0' then some (['0'], rest)
    else if c.isDigit then
      let p := rest.span Char.isDigit
      some (c :: p.1, p.2)
    else none

/-- Optional fraction part `\.[0-9]+` (consumed only when complete). -/
def parseFracPart : Str → (Str × Str)
  | '.' :: rest =>
    let p := rest.span Char.isDigit
    if p.1 = [] then ([], '.' :: rest) else ('.' :: p.1, p.2)
  | s => ([], s)

/-- Optional exponent part `[eE][-+]?[0-9]+` (consumed only when complete). -/
def parseExpPart : Str → (Str × Str)
  | [] => ([], [])
  | c :: rest =>
    if c = 'e' || c = 'E' then
      match rest with
      | [] => ([], [c])
      | s :: r2 =>
        if s = '+' || s = '-' then
          let p := r2.span Char.isDigit
          if p.1 = [] then ([], c :: s :: r2) else (c :: s :: p.1, p.2)
        else
          let p := rest.span Char.isDigit
          if p.1 = [] then ([], c :: rest) else (c :: p.1, p.2)
    else ([], c :: rest)

/-- JSON number literal, per the Python `json` scanner regex. -/
def parseNumber (s : Str) : Option (Str × Str) :=
  match s with
  | '-' :: rest =>
    match parseIntPart rest with
    | some (ip, r1) =>
      let f := parseFracPart r1
      let e := parseExpPart f.2
      some ('-' :: (ip ++ f.1 ++ e.1), e.2)
    | none => none
  | _ =>
    match parseIntPart s with
    | some (ip, r1) =>
      let f := parseFracPart r1
      let e := parseExpPart f.2
      some (ip ++ f.1 ++ e.1, e.2)
    | none => none

/-- Python dict insertion: an existing key keeps its position and gets
the new value (so duplicate JSON object keys are last-wins), a new key
is appended. -/
def objInsert (d : List (Str × JValue)) (k : Str) (v : JValue) : List (Str × JValue) :=
  if d.any (fun p => p.1 = k) then d.map (fun p => if p.1 = k then (k, v) else p)
  else d ++ [(k, v)]

mutual

/-- JSON value parser (fuel-based); input starts at a non-whitespace
position, returns the value and the unconsumed remainder. -/
def pv : Nat → Str → Option (JValue × Str)
  | 0, _ => none
  | Nat.succ f, s =>
    match s with
    | [] => none
    | c :: rest =>
      if c = '"' then
        match parseJString rest with
        | some (cs, r) => some (.str cs, r)
        | none => none
      else if c = '{' then
        let r := skipWs rest
        match r with
        | '}' :: r2 => some (.obj [], r2)
        | _ => po f r []
      else if c = '[' then
        let r := skipWs rest
        match r with
        | ']' :: r2 => some (.arr [], r2)
        | _ => pa f r []
      else if startsWithL ("null".toList) s then some (.null, s.drop 4)
      else if startsWithL ("true".toList) s then some (.bool true, s.drop 4)
      else if startsWithL ("false".toList) s then some (.bool false, s.drop 5)
      else if startsWithL ("NaN".toList) s then some (.num ("NaN".toList), s.drop 3)
      else if startsWithL ("Infinity".toList) s then some (.num ("Infinity".toList), s.drop 8)
      else if startsWithL ("-Infinity".toList) s then some (.num ("-Infinity".toList), s.drop 9)
      else if c = '-' || c.isDigit then
        match parseNumber s with
        | some (lit, r) => some (.num lit, r)
        | none => none
      else none

/-- Array elements after `[` (nonempty case). -/
def pa : Nat → Str → List JValue → Option (JValue × Str)
  | 0, _, _ => none
  | Nat.succ f, s, acc =>
    match pv f s with
    | some (v, r) =>
      match skipWs r with
      | ',' :: r2 => pa f (skipWs r2) (acc ++ [v])
      | ']' :: r2 => some (.arr (acc ++ [v]), r2)
      | _ => none
    | none => none

/-- Object members after `{` (nonempty case); keys must be strings. -/
def po : Nat → Str → List (Str × JValue) → Option (JValue × Str)
  | 0, _, _ => none
  | Nat.succ f, s, acc =>
    match s with
    | [] => none
    | c :: rest =>
      if c = '"' then
        match parseJString rest with
        | some (key, r1) =>
          match skipWs r1 with
          | ':' :: r2 =>
            match pv f (skipWs r2) with
            | some (v, r3) =>
              let acc2 := objInsert acc key v
              match skipWs r3 with
              | ',' :: r4 => po f (skipWs r4) acc2
              | '}' :: r4 => some (.obj acc2, r4)
              | _ => none
            | none => none
          | _ => none
        | none => none
      else none

end

/-- Model of `json.loads`: skip leading whitespace, parse one value,
and require only whitespace to remain (Python raises `Extra data`
otherwise); `none` models a raised `JSONDecodeError`. -/
def json_loads (s : Str) : Option JValue :=
  match pv (2 * s.length + 4) (skipWs s) with
  | some (v, rest) => if skipWs rest = [] then some v else none
  | none => none

/-- The candidate substring found by `re.search(r"\{.*\}", text,
re.DOTALL)`: from the first opening brace to the last closing brace,
when the latter lies strictly after the former. -/
def greedyCandidate (s : Str) : Option Str :=
  let i := (s.takeWhile (fun c => c != '{')).length
  let jr := (s.reverse.takeWhile (fun c => c != '}')).length
  if i < s.length && jr < s.length then
    let j := s.length - 1 - jr
    if i < j then some ((s.drop i).take (j + 1 - i)) else none
  else none

/-- The balanced-brace scan loop of `safe_json_from_text`: track
nesting depth from the first opening brace; the candidate ends at the
first position where the depth returns to zero. -/
def balancedScan : Str → Nat → Str → Option Str
  | [], _, _ => none
  | c :: rest, depth, acc =>
    if c = '{' then balancedScan rest (depth + 1) (c :: acc)
    else if c = '}' then
      if depth = 1 then some (c :: acc).reverse
      else balancedScan rest (depth - 1) (c :: acc)
    else balancedScan rest depth (c :: acc)

/-- The first balanced-brace span starting at the first opening brace,
or `none` when there is no opening brace or the braces never balance. -/
def balancedSpan (s : Str) : Option Str :=
  let t := s.dropWhile (fun c => c != '{')
  match t with
  | [] => none
  | _ :: _ => balancedScan t 0 []

def emptyMsg : Str := "Empty model response".toList

def parseMsg : Str := "Could not parse JSON from model response".toList

/-- `safe_json_from_text` from `src/main.py`, with the source control
flow: reject an absent text, preprocess, then try the direct decode,
the greedy first-`{`-to-last-`}` decode, and the single balanced-span
decode, raising `ValueError` (modelled as `.error` carrying only the
message) when all fail. -/
def safe_json_from_text : Option Str → Except Str JValue
  | none => .error emptyMsg
  | some t =>
    let s := preprocess t
    match json_loads s with
    | some v => .ok v
    | none =>
      match
        (match greedyCandidate s with
         | some c => json_loads c
         | none => none) with
      | some v => .ok v
      | none =>
        match
          (match balancedSpan s with
           | some c => json_loads c
           | none => none) with
        | some v => .ok v
        | none => .error parseMsg

def strategy1 (s : Str) : Option JValue := json_loads s

def strategy2 (s : Str) : Option JValue := (greedyCandidate s).bind json_loads

def strategy3 (s : Str) : Option JValue := (balancedSpan s).bind json_loads

/-- Modelled from the spec wording of the extractor contract (for the
refinement theorem of claim C1): fail on an absent text; otherwise
preprocess and return the result of the first of the three ordered
strategies that succeeds; fail with the fixed opaque message when all
three fail. -/
def extractorSpec : Option Str → Except Str JValue
  | none => .error emptyMsg
  | some t =>
    let s := preprocess t
    match strategy1 s <|> strategy2 s <|> strategy3 s with
    | some v => .ok v
    | none => .error parseMsg

mutual

/-- Python `repr` of a decoded JSON value (used by `str` on containers).
Escapes cover the backslash, the quote character, and the common
control characters; `\xNN`-style escaping of other non-printable
characters is not modelled (the claims under verification do not
exercise it). -/
def pyRepr : JValue → Str
  | .null => "None".toList
  | .bool true => "True".toList
  | .bool false => "False".toList
  | .num lit => lit
  | .str s => pyReprStr s
  | .arr xs => '[' :: (pyReprList xs ++ [']'])
  | .obj kvs => '{' :: (pyReprKvs kvs ++ ['}'])

def pyReprList : List JValue → Str
  | [] => []
  | [x] => pyRepr x
  | x :: y :: ys => pyRepr x ++ ',' :: ' ' :: pyReprList (y :: ys)

def pyReprKvs : List (Str × JValue) → Str
  | [] => []
  | [(k, v)] => pyReprStr k ++ ':' :: ' ' :: pyRepr v
  | (k, v) :: p :: ps => pyReprStr k ++ ':' :: ' ' :: pyRepr v ++ ',' :: ' ' :: pyReprKvs (p :: ps)

def pyReprStr (s : Str) : Str :=
  let q := if s.contains squote && !(s.contains '"') then '"' else squote
  q :: ((s.map (fun c =>
    if c = '\\' then ['\\', '\\']
    else if c = q then ['\\', q]
    else if c = '\n' then ['\\', 'n']
    else if c = '\r' then ['\\', 'r']
    else if c = '\t' then ['\\', 't']
    else [c])).flatten ++ [q])

end

/-- Python `str` of a decoded JSON value. -/
def pyStrOf : JValue → Str
  | .str s => s
  | v => pyRepr v

def JValue.isObjB : JValue → Bool
  | .obj _ => true
  | _ => false

/-- `isinstance(v, (int, float))` on a decoded value: numbers, and
booleans (Python `bool` is a subclass of `int`). -/
def isNumericScalar : JValue → Bool
  | .num _ => true
  | .bool _ => true
  | _ => false

def JValue.isNullB : JValue → Bool
  | .null => true
  | _ => false

/-- Association-list lookup, first match (the parser keeps keys unique). -/
def alookup {α : Type} : List (Str × α) → Str → Option α
  | [], _ => none
  | (k, v) :: rest, key => if k = key then some v else alookup rest key

inductive PyErr : Type where
  | attributeError
deriving DecidableEq

def amountK : Str := "amount".toList

def canonFields : List Str :=
  ["amount".toList, "currency".toList, "due_date".toList,
   "description".toList, "company".toList, "contact".toList]

/-- The loop body of `canonicalize_record` for one field `k`:
`d.get(k, "")`, `None` becomes the empty string, a numeric `amount`
is stringified, and the value is coerced with `str(...)` and stripped. -/
def canonValue (kvs : List (Str × JValue)) (k : Str) : Str :=
  let v := match alookup kvs k with
           | some v => v
           | none => .str []
  let v := if v.isNullB then .str [] else v
  let v := if k = amountK && isNumericScalar v then .str (pyStrOf v) else v
  pyStrip (pyStrOf v)

/-- `canonicalize_record` from `src/main.py`.  On a decoded mapping it
builds the six-field record by applying the per-field policy
`canonValue`.  On any non-mapping decoded value the `d.get` attribute
access raises `AttributeError`, modelled as `.error`. -/
def canonicalize_record : JValue → Except PyErr (List (Str × Str))
  | .obj kvs => .ok (canonFields.map (fun k => (k, canonValue kvs k)))
  | _ => .error .attributeError

/-- `is_openrouter_model` from `src/main.py`: contains `/` or ends
with `:free`. -/
def is_openrouter_model (m : Str) : Bool :=
  m.contains '/' || (":free".toList).isSuffixOf m

def OPENAI_URL : Str := "https://api.openai.com/v1/chat/completions".toList

def OPENROUTER_URL : Str := "https://openrouter.ai/api/v1/chat/completions".toList

/-- The upstream URL chosen by `forward_to_upstream` for a model string. -/
def upstream_url (m : Str) : Str :=
  if is_openrouter_model m then OPENROUTER_URL else OPENAI_URL

abbrev Dict := List (Str × JValue)

def hasKey (d : Dict) (k : Str) : Bool := (alookup d k).isSome

/-- In-place value update for an existing key (helper for `dictSet`). -/
def setInPlace : Dict → Str → JValue → Dict
  | [], _, _ => []
  | p :: rest, k, v =>
    if p.1 = k then (k, v) :: setInPlace rest k v else p :: setInPlace rest k v

/-- Python `dict` item assignment: existing keys keep their position,
new keys are appended. -/
def dictSet (d : Dict) (k : Str) (v : JValue) : Dict :=
  if hasKey d k then setInPlace d k v else d ++ [(k, v)]

/-- Python `dict.pop(k)` (key removal part). -/
def dictRemove (d : Dict) (k : Str) : Dict :=
  d.filter (fun p => decide (p.1 ≠ k))

def modelK : Str := "model".toList

def maxTokK : Str := "max_tokens".toList

def maxCompTokK : Str := "max_completion_tokens".toList

def gpt5Pfx : Str := "gpt-5".toList

/-- The conditional rename of `normalize_for_gpt5` given the looked-up
model string `m`: when `m` starts with `gpt-5`, `max_tokens` is
present and `max_completion_tokens` is not, rename the former to the
latter (preserving its value). -/
def normGo (body : Dict) (m : Str) : Except PyErr Dict :=
  if startsWithL gpt5Pfx m && hasKey body maxTokK && !hasKey body maxCompTokK then
    match alookup body maxTokK with
    | some v => .ok (dictSet (dictRemove body maxTokK) maxCompTokK v)
    | none => .ok body
  else .ok body

/-- `normalize_for_gpt5` from `src/main.py`: look up
`body.get("model", "")` and apply the conditional rename `normGo`.
`.startswith` on a non-string model value raises `AttributeError`,
modelled as `.error`. -/
def normalize_for_gpt5 (body : Dict) : Except PyErr Dict :=
  match alookup body modelK with
  | some (.str m) => normGo body m
  | none => normGo body []
  | some _ => .error .attributeError

/-- The outcome of the single upstream call made by `prefill`, as seen
by the rest of the handler: a transport failure (`httpx.HTTPError`),
or a response with a status code and the text extracted from
`resp["choices"][0]["message"]["content"]` (`none` models a JSON
`null` content; the destructuring of the response envelope itself is
abstracted into this field). -/
inductive UpstreamOutcome : Type where
  | transportError
  | response (status : Nat) (content : Option Str)

/-- What the `prefill` handler produces at the request boundary: a
JSON response `{"success": ..., "message": ...}` with a status code,
or an exception that escapes the handler unhandled (FastAPI turns it
into a bare 500 server fault). -/
inductive PrefillResult : Type where
  | resp (status : Nat) (success : Bool) (message : Str)
  | fault (e : PyErr)

def uniformMsg : Str := "something went wrong".toList

def okMsg : Str := "data extracted and written".toList

def requiredMsg : Str := "email_text is required".toList

/-- The CSV file `data.csv` as a list of rows (a row is a list of cell
strings); the absent file is the empty list.  CSV quoting of cells is
not modelled (the claims concern which rows are appended, not their
encoding). -/
abbrev CsvFile := List (List Str)

/-- `ensure_csv_header` from `src/main.py`: write the header row iff
the file is absent or empty (directory creation is elided). -/
def ensure_csv_header (file : CsvFile) : CsvFile :=
  if file = [] then [canonFields] else file

/-- The row `csv.DictWriter.writerow` emits for a canonical record:
the record values in the fixed field order. -/
def csvRow (record : List (Str × Str)) : List Str :=
  canonFields.map (fun k =>
    match alookup record k with
    | some v => v
    | none => [])

/-- The part of the `/v1/prefill` handler after request validation:
react to the upstream outcome.  The outer `try` of the source catches
only `httpx.HTTPError` (the `transportError` arm); the inner `try`
around `safe_json_from_text` catches every exception; an exception
raised by `canonicalize_record` is caught by neither and escapes as a
fault. -/
def prefillUp : UpstreamOutcome → CsvFile → PrefillResult × CsvFile
  | .transportError, file => (.resp 502 false uniformMsg, file)
  | .response status content, file =>
    if status = 200 then
      match safe_json_from_text content with
      | .error _ => (.resp 502 false uniformMsg, file)
      | .ok parsed =>
        match canonicalize_record parsed with
        | .error e => (.fault e, file)
        | .ok record =>
          let file1 := ensure_csv_header file
          (.resp 200 true okMsg, file1 ++ [csvRow record])
    else (.resp status false uniformMsg, file)

/-- The `/v1/prefill` handler from `src/main.py`, with the upstream
call abstracted as an `UpstreamOutcome` input and the CSV store
passed as explicit state: reject an empty (after strip) email text
with a 400 client error, otherwise run the pipeline `prefillUp`. -/
def prefill (email_text : Str) (u : UpstreamOutcome) (file : CsvFile) :
    PrefillResult × CsvFile :=
  if pyStrip email_text = [] then (.resp 400 false requiredMsg, file)
  else prefillUp u file


/-- How many of the two recognized token-limit parameter names are
present in a payload. -/
def tokLimitCount (d : Dict) : Nat :=
  (if hasKey d maxTokK then 1 else 0) + (if hasKey d maxCompTokK then 1 else 0)

/-- Whether a payload's `model` entry is a string starting with `gpt-5`
(the `body.get("model", "")` default makes a missing key the empty
string, which does not match). -/
def modelIsGpt5 (b : Dict) : Bool :=
  match alookup b modelK with
  | some (.str m) => startsWithL gpt5Pfx m
  | some _ => false
  | none => false

/-- All three smart-quote characters absent from a text. -/
def noSmartQuotes (l : Str) : Bool :=
  l.all (fun c => c != lDQuote && c != rDQuote && c != rSQuote)

theorem alookup_append_ne (d : Dict) (k key : Str) (v : JValue) (hne : key ≠ k) :
    alookup (d ++ [(k, v)]) key = alookup d key := by
  induction d with
  | nil => simp [alookup, Ne.symm hne]
  | cons p rest ih =>
    obtain ⟨k1, v1⟩ := p
    simp [alookup, ih]

theorem alookup_setInPlace_ne (d : Dict) (k key : Str) (v : JValue) (hne : key ≠ k) :
    alookup (setInPlace d k v) key = alookup d key := by
  induction d with
  | nil => rfl
  | cons p rest ih =>
    obtain ⟨k1, v1⟩ := p
    by_cases hp : k1 = k
    · subst hp
      simp [setInPlace, alookup, Ne.symm hne, ih]
    · simp [setInPlace, alookup, hp, ih]

theorem alookup_dictSet_ne (d : Dict) (k key : Str) (v : JValue) (hne : key ≠ k) :
    alookup (dictSet d k v) key = alookup d key := by
  unfold dictSet
  by_cases hk : hasKey d k
  · rw [if_pos hk]
    exact alookup_setInPlace_ne d k key v hne
  · rw [if_neg hk]
    exact alookup_append_ne d k key v hne

theorem alookup_dictRemove_ne (d : Dict) (k key : Str) (hne : key ≠ k) :
    alookup (dictRemove d k) key = alookup d key := by
  induction d with
  | nil => rfl
  | cons p rest ih =>
    obtain ⟨k1, v1⟩ := p
    by_cases hp : k1 = k
    · subst hp
      simp [dictRemove, List.filter_cons, alookup, Ne.symm hne] at ih ⊢
      exact ih
    · by_cases hpk : k1 = key
      · subst hpk
        simp [dictRemove, List.filter_cons, alookup, hp]
      · simp [dictRemove, List.filter_cons, alookup, hp, hpk] at ih ⊢
        exact ih

theorem alookup_dictRemove_self (d : Dict) (k : Str) :
    alookup (dictRemove d k) k = none := by
  induction d with
  | nil => rfl
  | cons p rest ih =>
    obtain ⟨k1, v1⟩ := p
    by_cases hp : k1 = k
    · subst hp
      simp [dictRemove, List.filter_cons] at ih ⊢
      exact ih
    · simp [dictRemove, List.filter_cons, alookup, hp] at ih ⊢
      exact ih

theorem alookup_append_self_of_none (d : Dict) (k : Str) (v : JValue)
    (h : alookup d k = none) : alookup (d ++ [(k, v)]) k = some v := by
  induction d with
  | nil => simp [alookup]
  | cons p rest ih =>
    obtain ⟨k1, v1⟩ := p
    by_cases hp : k1 = k
    · simp [alookup, hp] at h
    · simp [alookup, hp] at h ⊢
      exact ih h

theorem hasKey_dictSet_self (d : Dict) (k : Str) (v : JValue) :
    hasKey (dictSet d k v) k = true := by
  unfold dictSet
  by_cases hk : hasKey d k
  · rw [if_pos hk]
    unfold hasKey at hk ⊢
    induction d with
    | nil => simp [alookup] at hk
    | cons p rest ih =>
      obtain ⟨k1, v1⟩ := p
      by_cases hp : k1 = k
      · subst hp
        simp [setInPlace, alookup]
      · simp [setInPlace, alookup, hp] at hk ⊢
        exact ih hk
  · rw [if_neg hk]
    unfold hasKey at hk ⊢
    rcases h : alookup d k with _ | v0
    · rw [alookup_append_self_of_none d k v h]
      rfl
    · rw [h] at hk
      simp at hk

theorem normGo_fix (b : Dict) (m : Str) (b' : Dict) (h : normGo b m = .ok b') :
    normGo b' m = .ok b' ∧ alookup b' modelK = alookup b modelK := by
  unfold normGo at h
  by_cases hc : (startsWithL gpt5Pfx m && hasKey b maxTokK && !hasKey b maxCompTokK) = true
  · rw [if_pos hc] at h
    rcases hv : alookup b maxTokK with _ | v
    · rw [hv] at h
      injection h with h
      subst h
      refine ⟨?_, rfl⟩
      unfold normGo
      rw [if_pos hc, hv]
    · rw [hv] at h
      injection h with h
      subst h
      constructor
      · unfold normGo
        have h2 : hasKey (dictSet (dictRemove b maxTokK) maxCompTokK v) maxTokK = false := by
          unfold hasKey
          rw [alookup_dictSet_ne _ _ _ _ (by decide), alookup_dictRemove_self]
          rfl
        rw [h2]
        simp
      · rw [alookup_dictSet_ne _ _ _ _ (by decide), alookup_dictRemove_ne _ _ _ (by decide)]
  · rw [if_neg hc] at h
    injection h with h
    subst h
    refine ⟨?_, rfl⟩
    unfold normGo
    rw [if_neg hc]

theorem normalize_fix (b b' : Dict) (h : normalize_for_gpt5 b = .ok b') :
    normalize_for_gpt5 b' = .ok b' := by
  unfold normalize_for_gpt5 at h ⊢
  rcases hm : alookup b modelK with _ | v
  · rw [hm] at h
    obtain ⟨h1, h2⟩ := normGo_fix b [] b' h
    rw [hm] at h2
    rw [h2]
    exact h1
  · rw [hm] at h
    cases v with
    | str m =>
      obtain ⟨h1, h2⟩ := normGo_fix b m b' h
      rw [hm] at h2
      rw [h2]
      exact h1
    | null => simp at h
    | bool b0 => simp at h
    | num l0 => simp at h
    | arr x0 => simp at h
    | obj o0 => simp at h

/-- C9: the parameter normalizer is idempotent: applying
`normalize_for_gpt5` to the result of `normalize_for_gpt5` (composed
through the exception monad) gives the same result, so reapplying it
to an already-normalized payload is a no-op. -/
theorem C9_normalize_idempotent (b : Dict) :
    (normalize_for_gpt5 b).bind normalize_for_gpt5 = normalize_for_gpt5 b := by
  rcases h : normalize_for_gpt5 b with e | b'
  · rfl
  · exact normalize_fix b b' h

/-- C8 counterexample: a gpt-5 payload already carrying both
`max_tokens` and `max_completion_tokens` is left unchanged by
`normalize_for_gpt5`, so after normalization both recognized
token-limit parameter names are present, refuting the claimed
"exactly one, never both" invariant. -/
theorem C8_counterexample :
    normalize_for_gpt5
        [(modelK, .str gpt5Pfx), (maxTokK, .num ['1']), (maxCompTokK, .num ['2'])]
      = .ok [(modelK, .str gpt5Pfx), (maxTokK, .num ['1']), (maxCompTokK, .num ['2'])]
    ∧ tokLimitCount
        [(modelK, .str gpt5Pfx), (maxTokK, .num ['1']), (maxCompTokK, .num ['2'])] = 2 :=
  ⟨rfl, rfl⟩

theorem normGo_count (b : Dict) (m : Str) (b' : Dict) (h : normGo b m = .ok b') :
    tokLimitCount b' = tokLimitCount b
    ∧ (startsWithL gpt5Pfx m = true → hasKey b maxTokK = true →
        hasKey b maxCompTokK = false →
        hasKey b' maxCompTokK = true ∧ hasKey b' maxTokK = false) := by
  unfold normGo at h
  by_cases hc : (startsWithL gpt5Pfx m && hasKey b maxTokK && !hasKey b maxCompTokK) = true
  · rw [if_pos hc] at h
    have hc2 : (startsWithL gpt5Pfx m = true ∧ hasKey b maxTokK = true)
        ∧ hasKey b maxCompTokK = false := by simpa using hc
    have hmt : hasKey b maxTokK = true := hc2.1.2
    have hmc : hasKey b maxCompTokK = false := hc2.2
    rcases hv : alookup b maxTokK with _ | v
    · unfold hasKey at hmt
      rw [hv] at hmt
      cases hmt
    · rw [hv] at h
      injection h with h
      subst h
      have hT : hasKey (dictSet (dictRemove b maxTokK) maxCompTokK v) maxTokK = false := by
        unfold hasKey
        rw [alookup_dictSet_ne _ _ _ _ (by decide), alookup_dictRemove_self]
        rfl
      have hC : hasKey (dictSet (dictRemove b maxTokK) maxCompTokK v) maxCompTokK = true :=
        hasKey_dictSet_self _ _ _
      constructor
      · unfold tokLimitCount
        rw [hT, hC, hmt, hmc]
        simp
      · intro _ _ _
        exact ⟨hC, hT⟩
  · rw [if_neg hc] at h
    injection h with h
    subst h
    refine ⟨rfl, ?_⟩
    intro h1 h2 h3
    exfalso
    apply hc
    rw [h1, h2, h3]
    rfl

/-- C8 amended: `normalize_for_gpt5` preserves how many of the two
recognized token-limit parameter names are present (a payload with
neither keeps neither, one keeps one, both keeps both); in particular
for a gpt-5-prefixed model carrying only the legacy `max_tokens`, the
normalized payload carries `max_completion_tokens` and not
`max_tokens`. -/
theorem C8_token_limit_names (b b' : Dict) (h : normalize_for_gpt5 b = .ok b') :
    tokLimitCount b' = tokLimitCount b
    ∧ (modelIsGpt5 b = true → hasKey b maxTokK = true →
        hasKey b maxCompTokK = false →
        hasKey b' maxCompTokK = true ∧ hasKey b' maxTokK = false) := by
  unfold normalize_for_gpt5 at h
  rcases hm : alookup b modelK with _ | v
  · rw [hm] at h
    obtain ⟨h1, _⟩ := normGo_count b [] b' h
    refine ⟨h1, ?_⟩
    intro hg _ _
    unfold modelIsGpt5 at hg
    rw [hm] at hg
    cases hg
  · rw [hm] at h
    cases v with
    | str m =>
      obtain ⟨h1, h2⟩ := normGo_count b m b' h
      refine ⟨h1, ?_⟩
      intro hg hmt hmc
      unfold modelIsGpt5 at hg
      rw [hm] at hg
      exact h2 hg hmt hmc
    | null => simp at h
    | bool b0 => simp at h
    | num l0 => simp at h
    | arr x0 => simp at h
    | obj o0 => simp at h

/-- Witness for C8 amended at a concrete gpt-5 payload carrying only
`max_tokens`. -/
theorem C8_token_limit_names_witness :
    tokLimitCount [(modelK, JValue.str gpt5Pfx), (maxCompTokK, JValue.num ['1'])]
        = tokLimitCount [(modelK, JValue.str gpt5Pfx), (maxTokK, JValue.num ['1'])]
    ∧ hasKey [(modelK, JValue.str gpt5Pfx), (maxCompTokK, JValue.num ['1'])] maxCompTokK = true
    ∧ hasKey [(modelK, JValue.str gpt5Pfx), (maxCompTokK, JValue.num ['1'])] maxTokK = false := by
  have h := C8_token_limit_names
    [(modelK, JValue.str gpt5Pfx), (maxTokK, JValue.num ['1'])]
    [(modelK, JValue.str gpt5Pfx), (maxCompTokK, JValue.num ['1'])] (by rfl)
  exact ⟨h.1, (h.2 (by decide) (by decide) (by decide)).1, (h.2 (by decide) (by decide) (by decide)).2⟩

/-- C10: the extractor can succeed with a non-mapping value: on the
bare JSON array text `[1, 2]` `safe_json_from_text` returns a list,
not a mapping, and `canonicalize_record` on that value raises
`AttributeError`; extractor success therefore does not establish the
mapping-like precondition canonicalization assumes. -/
theorem C10_extraction_success_not_mapping :
    safe_json_from_text (some ("[1, 2]".toList)) = .ok (.arr [.num ['1'], .num ['2']])
    ∧ (JValue.arr [.num ['1'], .num ['2']]).isObjB = false
    ∧ canonicalize_record (.arr [.num ['1'], .num ['2']]) = .error .attributeError :=
  ⟨rfl, rfl, rfl⟩

/-- C5: the provider classifier maps a model identifier to OpenRouter
exactly when it contains a slash or ends with the suffix `:free`, and
otherwise to the default provider (OpenAI); in particular `gpt-4o`
and the empty string classify as the default provider (OpenAI URL)
and `qwen/qwen3-235b-a22b:free` and `anything:free` classify as the
alternate provider (OpenRouter URL). -/
theorem C5_provider_classification :
    (∀ m : Str, is_openrouter_model m = true ↔ ('/' ∈ m ∨ (":free".toList) <:+ m))
    ∧ is_openrouter_model ("gpt-4o".toList) = false
    ∧ is_openrouter_model [] = false
    ∧ is_openrouter_model ("qwen/qwen3-235b-a22b:free".toList) = true
    ∧ is_openrouter_model ("anything:free".toList) = true
    ∧ upstream_url ("gpt-4o".toList) = OPENAI_URL
    ∧ upstream_url [] = OPENAI_URL
    ∧ upstream_url ("qwen/qwen3-235b-a22b:free".toList) = OPENROUTER_URL
    ∧ upstream_url ("anything:free".toList) = OPENROUTER_URL := by
  refine ⟨?_, by decide, by decide, by decide, by decide, rfl, rfl, rfl, rfl⟩
  intro m
  simp [is_openrouter_model, List.isSuffixOf_iff_suffix, List.contains]

theorem alookup_map_keys {α : Type} (g : Str → α) (keys : List Str) (key : Str)
    (h : key ∈ keys) :
    alookup (keys.map (fun k => (k, g k))) key = some (g key) := by
  induction keys with
  | nil => cases h
  | cons k0 ks ih =>
    by_cases hk : k0 = key
    · subst hk
      simp [alookup]
    · rcases List.mem_cons.mp h with h1 | h1
      · exact absurd h1.symm hk
      · simp [alookup, hk, ih h1]

theorem alookup_map_keys_none {α : Type} (g : Str → α) (keys : List Str) (key : Str)
    (h : key ∉ keys) :
    alookup (keys.map (fun k => (k, g k))) key = none := by
  induction keys with
  | nil => rfl
  | cons k0 ks ih =>
    simp only [List.mem_cons, not_or] at h
    have hk : ¬(k0 = key) := fun hh => h.1 hh.symm
    simp [alookup, hk]
    exact ih h.2

theorem canonValue_absent (kvs : List (Str × JValue)) (k : Str)
    (h : alookup kvs k = none) : canonValue kvs k = [] := by
  unfold canonValue
  rw [h]
  simp [JValue.isNullB, isNumericScalar, pyStrOf, pyStrip]

theorem canonValue_null (kvs : List (Str × JValue)) (k : Str)
    (h : alookup kvs k = some .null) : canonValue kvs k = [] := by
  unfold canonValue
  rw [h]
  simp [JValue.isNullB, isNumericScalar, pyStrOf, pyStrip]

theorem canonValue_num_amount (kvs : List (Str × JValue)) (lit : Str)
    (h : alookup kvs amountK = some (.num lit)) :
    canonValue kvs amountK = pyStrip lit := by
  unfold canonValue
  rw [h]
  simp [JValue.isNullB, isNumericScalar, pyStrOf, pyRepr]

theorem canonValue_str (kvs : List (Str × JValue)) (k : Str) (s : Str)
    (h : alookup kvs k = some (.str s)) : canonValue kvs k = pyStrip s := by
  unfold canonValue
  rw [h]
  simp [JValue.isNullB, isNumericScalar, pyStrOf]

/-- C4: on every mapping-like decoded input, `canonicalize_record`
never fails and returns a record whose keys are exactly the six
canonical fields in order; a field absent from the input or bound to
null becomes the empty string, a numeric `amount` becomes its
stringified (and stripped) literal, a string field is its whitespace-
trimmed value, and unknown extra keys of the input are dropped (the
result holds no key outside the six). -/
theorem C4_canonicalize_total_shape (kvs : List (Str × JValue)) :
    ∃ r, canonicalize_record (.obj kvs) = .ok r
      ∧ r.map Prod.fst = canonFields
      ∧ (∀ k, k ∈ canonFields → alookup kvs k = none → alookup r k = some [])
      ∧ (∀ k, k ∈ canonFields → alookup kvs k = some .null → alookup r k = some [])
      ∧ (∀ lit, alookup kvs amountK = some (.num lit) →
          alookup r amountK = some (pyStrip lit))
      ∧ (∀ k s, k ∈ canonFields → alookup kvs k = some (.str s) →
          alookup r k = some (pyStrip s))
      ∧ (∀ k, k ∉ canonFields → alookup r k = none) := by
  refine ⟨canonFields.map (fun k => (k, canonValue kvs k)), rfl, ?_, ?_, ?_, ?_, ?_, ?_⟩
  · rw [List.map_map]
    have hid : (Prod.fst ∘ fun k : Str => (k, canonValue kvs k)) = id := rfl
    rw [hid, List.map_id]
  · intro k hk h
    rw [alookup_map_keys _ _ _ hk, canonValue_absent kvs k h]
  · intro k hk h
    rw [alookup_map_keys _ _ _ hk, canonValue_null kvs k h]
  · intro lit h
    have hm : amountK ∈ canonFields := by decide
    rw [alookup_map_keys _ _ _ hm, canonValue_num_amount kvs lit h]
  · intro k s hk h
    rw [alookup_map_keys _ _ _ hk, canonValue_str kvs k s h]
  · intro k hk
    exact alookup_map_keys_none _ _ _ hk

/-- Witness for C4 at a concrete input with a null field, a missing
field and an unknown extra key. -/
theorem C4_canonicalize_witness :
    ∃ r, canonicalize_record
        (.obj [("currency".toList, JValue.null), ("junk".toList, JValue.str ['x'])]) = .ok r
      ∧ alookup r ("currency".toList) = some []
      ∧ alookup r ("amount".toList) = some []
      ∧ alookup r ("junk".toList) = none := by
  obtain ⟨r, h1, h2, h3, h4, h5, h6, h7⟩ := C4_canonicalize_total_shape
    [("currency".toList, JValue.null), ("junk".toList, JValue.str ['x'])]
  exact ⟨r, h1, h4 _ (by decide) rfl, h3 _ (by decide) rfl, h7 _ (by decide)⟩

theorem canonicalize_record_non_mapping (v : JValue) (h : v.isObjB = false) :
    canonicalize_record v = .error .attributeError := by
  cases v <;> first
    | rfl
    | (exfalso; simp [JValue.isObjB] at h)

/-- C7: on a prefill request (with nonempty email text) whose
upstream call returns a non-200 status, or returns 200 with content
failing every extraction strategy, the handler returns the uniform
failure payload (success false, message "something went wrong"; the
upstream status is passed through in the non-200 case, 502 otherwise)
and the CSV store is left unchanged: no header is created and no row,
not even a partial one, is appended. -/
theorem C7_failure_leaves_store_unchanged (email : Str) (s : Nat) (c : Option Str)
    (file : CsvFile) (hmail : pyStrip email ≠ [])
    (h : s ≠ 200 ∨ ∃ e, safe_json_from_text c = .error e) :
    prefill email (.response s c) file
      = (.resp (if s = 200 then 502 else s) false uniformMsg, file) := by
  unfold prefill
  rw [if_neg hmail]
  by_cases hs : s = 200
  · subst hs
    rcases h with h | ⟨e, he⟩
    · exact absurd rfl h
    · simp [prefillUp, he]
  · simp [prefillUp, hs]

/-- Witness for C7 at a concrete non-200 upstream status. -/
theorem C7_failure_witness :
    prefill ("hi".toList) (.response 500 none) [] = (.resp 500 false uniformMsg, []) := by
  have h := C7_failure_leaves_store_unchanged ("hi".toList) 500 none []
    (by decide) (Or.inl (by decide))
  simpa using h

/-- C6 counterexample: an upstream 200 response whose content is the
decodable non-mapping text `[1, 2]` makes extraction succeed and
`canonicalize_record` raise `AttributeError`, which the handler does
not catch: the exception escapes the request boundary as an unhandled
fault instead of the uniform failure response. -/
theorem C6_counterexample :
    prefill ("hi".toList) (.response 200 (some ("[1, 2]".toList))) []
      = (.fault .attributeError, []) := rfl

/-- C6 amended: extraction failures are caught inside the handler and
converted to the uniform failure response shape, never escaping the
request boundary; canonicalization failures, which occur exactly when
the extracted value is not mapping-like, are not caught and escape
the boundary as unhandled faults. -/
theorem C6_fault_propagation (email : Str) (c : Option Str) (file : CsvFile)
    (hmail : pyStrip email ≠ []) :
    (∀ e, safe_json_from_text c = .error e →
        prefill email (.response 200 c) file = (.resp 502 false uniformMsg, file))
    ∧ (∀ v, safe_json_from_text c = .ok v → v.isObjB = false →
        prefill email (.response 200 c) file = (.fault .attributeError, file)) := by
  constructor
  · intro e he
    unfold prefill
    rw [if_neg hmail]
    simp [prefillUp, he]
  · intro v hv hobj
    unfold prefill
    rw [if_neg hmail]
    simp [prefillUp, hv, canonicalize_record_non_mapping v hobj]

/-- Witness for C6 amended: a garbage upstream body yields the caught
uniform failure response. -/
theorem C6_fault_witness :
    prefill ("ok".toList) (.response 200 (some ("garbage".toList))) []
      = (.resp 502 false uniformMsg, []) :=
  (C6_fault_propagation ("ok".toList) (some ("garbage".toList)) [] (by decide)).1
    parseMsg rfl

/-- C1: `safe_json_from_text` fails exactly when the input text is
absent or, after preprocessing, all three ordered strategies (direct
decode; first-brace-to-last-brace decode; first-balanced-span decode,
no further spans tried) fail, and otherwise returns the result of the
first succeeding strategy; the failure carries only a fixed message
and no partial result.  Stated as equality with `extractorSpec`, the
spec-worded first-success pipeline over the three strategies. -/
theorem C1_extractor_equals_spec (t : Option Str) :
    safe_json_from_text t = extractorSpec t := by
  cases t with
  | none => rfl
  | some s =>
    simp only [safe_json_from_text, extractorSpec, strategy1, strategy2, strategy3]
    cases h1 : json_loads (preprocess s) with
    | some v => simp [h1]
    | none =>
      simp only [h1, Option.none_orElse]
      cases h2 : greedyCandidate (preprocess s) with
      | none =>
        simp only [h2, Option.none_bind, Option.none_orElse]
        cases h3 : balancedSpan (preprocess s) with
        | none => simp [h3]
        | some c => simp [h3]
      | some c =>
        simp only [h2, Option.some_bind]
        cases h4 : json_loads c with
        | none =>
          simp only [h4, Option.none_orElse]
          cases h3 : balancedSpan (preprocess s) with
          | none => simp [h3]
          | some c2 => simp [h3]
        | some v => simp [h4]

theorem pv_backtick (f : Nat) (l : Str) : pv f (backtick :: l) = none := by
  cases f with
  | zero => rfl
  | succ f => rfl

theorem skipWs_backtick (l : Str) : skipWs (backtick :: l) = backtick :: l := rfl

theorem json_loads_backtick (l : Str) : json_loads (backtick :: l) = none := by
  unfold json_loads
  rw [skipWs_backtick, pv_backtick]

theorem startsWith_fence_head (t : Str) (h : startsWithL fence t = true) :
    ∃ r, t = backtick :: r := by
  cases t with
  | nil => exact absurd h (by decide)
  | cons c cs =>
    refine ⟨cs, ?_⟩
    have h3 : (decide (backtick = c) && startsWithL [backtick, backtick] cs) = true := h
    have h4 : backtick = c ∧ startsWithL [backtick, backtick] cs = true := by
      simpa using h3
    rw [← h4.1]

theorem replaceSmart_eq_self (l : Str) (h : noSmartQuotes l = true) :
    replaceSmart l = l := by
  induction l with
  | nil => rfl
  | cons c cs ih =>
    have h2 : ((c ≠ lDQuote ∧ c ≠ rDQuote) ∧ c ≠ rSQuote)
        ∧ ∀ x ∈ cs, (x ≠ lDQuote ∧ x ≠ rDQuote) ∧ x ≠ rSQuote := by
      simpa [noSmartQuotes] using h
    have hcs : noSmartQuotes cs = true := by
      simp only [noSmartQuotes, List.all_eq_true]
      intro x hx
      have h5 := h2.2 x hx
      simp [h5.1.1, h5.1.2, h5.2]
    have ih2 := ih hcs
    simp only [replaceSmart, List.map_cons] at ih2 ⊢
    rw [if_neg h2.1.1.1, if_neg h2.1.1.2, if_neg h2.1.2, ih2]

/-- C2 counterexample: the three-character text consisting of a JSON
string literal containing one left smart quote is decodable JSON with
no surrounding noise, yet `safe_json_from_text` fails on it: the
smart-quote normalization corrupts the text before the direct decode,
and no strategy recovers. -/
theorem C2_counterexample :
    json_loads ['"', lDQuote, '"'] = some (.str [lDQuote])
    ∧ safe_json_from_text (some ['"', lDQuote, '"']) = .error parseMsg :=
  ⟨rfl, rfl⟩

/-- C2 amended: for every input text that is decodable JSON with no
surrounding noise (no surrounding whitespace, formalized as the text
being strip-invariant) and containing no smart-quote characters, the
direct-decode strategy applies unchanged and `safe_json_from_text`
returns exactly the object denoted by the text. -/
theorem C2_direct_decode (t : Str) (v : JValue) (h1 : json_loads t = some v)
    (h2 : noSmartQuotes t = true) (h3 : pyStrip t = t) :
    safe_json_from_text (some t) = .ok v := by
  have hfence : startsWithL fence t = false := by
    cases hb : startsWithL fence t
    · rfl
    · obtain ⟨r, hr⟩ := startsWith_fence_head t hb
      rw [hr, json_loads_backtick] at h1
      cases h1
  have hstrip : strip_code_fences t = t := by
    simp only [strip_code_fences]
    rw [h3]
    simp [hfence]
  have hpre : preprocess t = t := by
    unfold preprocess
    rw [hstrip]
    exact replaceSmart_eq_self t h2
  simp only [safe_json_from_text]
  rw [hpre, h1]

/-- Witness for C2 amended at a concrete decodable object text. -/
theorem C2_direct_decode_witness :
    safe_json_from_text (some ("\x7b\"a\": 1\x7d".toList))
      = .ok (.obj [(['a'], .num ['1'])]) :=
  C2_direct_decode _ _ rfl (by decide) (by decide)

